import Mathlib

/-!
Verification of the `stack-trait` crate: a `Stack` trait with checked and
unchecked operations, a `LIFOEntry` proof object certifying non-emptiness,
and the reference implementation of the trait for `Vec<T>`.

Modelling conventions:
* A `Vec<T>` is a `List α`; `Vec::push` appends at the end, `Vec::pop`
  removes and returns the last element.
* The `Stack` trait is a structure `StackImpl σ α` of the required methods
  (state type `σ`, item type `α`); the trait's default methods are functions
  taking a `StackImpl`.
* Stateful methods pass the container state explicitly: a `&mut self` method
  returns the new state alongside its result.
* An unchecked operation (`unwrap_unchecked` semantics) is `Option`-valued:
  `none` models the undefined behaviour of calling it with the precondition
  violated; on inputs satisfying the precondition it is `some`.
* `LIFOEntry<'a, C>` wraps `&'a mut C`: modelled as a wrapper around the
  container state it exclusively borrows.  Dropping an entry without popping
  hands the (unchanged) wrapped state back to the caller.
-/

/-- `LIFOEntry<'a, C>`: wraps the exclusively borrowed container state.
The Rust struct stores only the reference; non-emptiness is a construction
discipline, not a runtime field, so the model carries no proof either. -/
structure LIFOEntry (σ : Type) : Type where
  stack : σ
deriving DecidableEq

/-- The required methods of the `Stack` trait (those without a default body),
for container state `σ` and item type `α`.  `lifo_mut` returns
`Option<&mut Item>`; a mutable reference is modelled as the lens made of the
read `lifo_mut` and the write `lifo_mut_set` (assignment through it). -/
structure StackImpl (σ α : Type) : Type where
  s_is_empty : σ → Bool
  s_push : σ → α → σ
  s_pop : σ → Option α × σ
  lifo_ref : σ → Option α
  lifo_mut : σ → Option α
  lifo_mut_set : σ → α → σ

/-- `LIFOEntry::new`: wraps the mutable reference.  (The `unsafe` contract —
the stack must be non-empty — is the caller's obligation.) -/
def LIFOEntry.new {σ : Type} (s : σ) : LIFOEntry σ :=
  ⟨s⟩

/-- Default `Stack::s_push_checked`: `self.s_push(item); Some(())`. -/
def Stack.s_push_checked {σ α : Type} (S : StackImpl σ α) (s : σ) (x : α) :
    Option Unit × σ :=
  (some (), S.s_push s x)

/-- Default `Stack::s_pop_unchecked`: `self.s_pop().unwrap_unchecked()`.
`none` models the undefined behaviour when `s_pop` returns `None`. -/
def Stack.s_pop_unchecked {σ α : Type} (S : StackImpl σ α) (s : σ) :
    Option (α × σ) :=
  match S.s_pop s with
  | (some x, s') => some (x, s')
  | (none, _) => none

/-- Default `Stack::lifo`: `if self.s_is_empty() { None } else
{ Some(unsafe { LIFOEntry::new(self) }) }`. -/
def Stack.lifo {σ α : Type} (S : StackImpl σ α) (s : σ) :
    Option (LIFOEntry σ) :=
  if S.s_is_empty s then none else some (LIFOEntry.new s)

/-- Default `Stack::lifo_unchecked`: `self.lifo().unwrap_unchecked()`. -/
def Stack.lifo_unchecked {σ α : Type} (S : StackImpl σ α) (s : σ) :
    Option (LIFOEntry σ) :=
  Stack.lifo S s

/-- Default `Stack::lifo_ref_unchecked`: `self.lifo_ref().unwrap_unchecked()`. -/
def Stack.lifo_ref_unchecked {σ α : Type} (S : StackImpl σ α) (s : σ) :
    Option α :=
  S.lifo_ref s

/-- Default `Stack::lifo_mut_unchecked`: `self.lifo_mut().unwrap_unchecked()`. -/
def Stack.lifo_mut_unchecked {σ α : Type} (S : StackImpl σ α) (s : σ) :
    Option α :=
  S.lifo_mut s

/-- `LIFOEntry::pop`: destructures the entry and calls `s_pop_unchecked` on
the borrowed stack; returns the popped item together with the container state
the borrow leaves behind. -/
def LIFOEntry.pop {σ α : Type} (S : StackImpl σ α) (e : LIFOEntry σ) :
    Option (α × σ) :=
  Stack.s_pop_unchecked S e.stack

/-- `Deref for LIFOEntry`: `lifo_ref_unchecked` on the borrowed stack. -/
def LIFOEntry.deref {σ α : Type} (S : StackImpl σ α) (e : LIFOEntry σ) :
    Option α :=
  Stack.lifo_ref_unchecked S e.stack

/-- Writing a value through `DerefMut for LIFOEntry`: `lifo_mut_unchecked`
on the borrowed stack, then assignment through the returned mutable
reference.  `none` models the undefined behaviour of the unchecked call on an
empty stack. -/
def LIFOEntry.deref_mut_write {σ α : Type} (S : StackImpl σ α)
    (e : LIFOEntry σ) (x : α) : Option (LIFOEntry σ) :=
  match Stack.lifo_mut_unchecked S e.stack with
  | none => none
  | some _ => some (LIFOEntry.new (S.lifo_mut_set e.stack x))

/-- `impl<T> Stack for Vec<T>`: emptiness is zero length, push appends at the
end, pop removes and returns the last element, `lifo_ref`/`lifo_mut` are
`last`/`last_mut`; assignment through `last_mut` replaces the element at
index `len - 1`. -/
def vecStack (α : Type) : StackImpl (List α) α :=
  { s_is_empty := fun v => v.isEmpty,
    s_push := fun v x => v ++ [x],
    s_pop := fun v => (v.getLast?, v.dropLast),
    lifo_ref := fun v => v.getLast?,
    lifo_mut := fun v => v.getLast?,
    lifo_mut_set := fun v x => v.set (v.length - 1) x }

/-- `<Vec<T> as Stack>::lifo_push`: `self.push(item)` followed by
`self.lifo_unchecked()`. -/
def VecStack.lifo_push {α : Type} (v : List α) (x : α) :
    Option (LIFOEntry (List α)) :=
  Stack.lifo_unchecked (vecStack α) ((vecStack α).s_push v x)

/-- A client-visible stack operation: push an item, or checked pop. -/
inductive StackOp (α : Type) : Type
  | push (x : α) : StackOp α
  | pop : StackOp α
deriving DecidableEq

/-- Run a sequence of operations against the `Vec`-backed stack, recording
the result of every checked pop (`s_pop`). -/
def runVec {α : Type} : List α → List (StackOp α) → List (Option α)
  | _, [] => []
  | v, StackOp.push x :: ops => runVec ((vecStack α).s_push v x) ops
  | v, StackOp.pop :: ops =>
    ((vecStack α).s_pop v).1 :: runVec ((vecStack α).s_pop v).2 ops

/-- Modelled from the spec: the oracle for strict LIFO ordering.  The state
is the list of items pushed but not yet popped, most recent first; a pop
returns exactly the most recently pushed item not yet popped (absence when
none is pending). -/
def runSpec {α : Type} : List α → List (StackOp α) → List (Option α)
  | _, [] => []
  | pending, StackOp.push x :: ops => runSpec (x :: pending) ops
  | pending, StackOp.pop :: ops => pending.head? :: runSpec pending.tail ops

/-! ## Helper lemmas -/

theorem dropLast_reverse_eq {α : Type} (l : List α) :
    l.reverse.dropLast = l.tail.reverse := by
  cases l with
  | nil => rfl
  | cons a t => simp [List.reverse_cons]

theorem set_last_eq {α : Type} (v : List α) (w : α) (h : v ≠ []) :
    v.set (v.length - 1) w = v.dropLast ++ [w] := by
  rcases v.eq_nil_or_concat with h1 | ⟨ys, a, rfl⟩
  · exact absurd h1 h
  · simp [List.set_append_right, List.length_append]

theorem runVec_eq_runSpec {α : Type} (ops : List (StackOp α)) :
    ∀ pending : List α, runVec pending.reverse ops = runSpec pending ops := by
  induction ops with
  | nil => intro pending; rfl
  | cons op ops ih =>
    intro pending
    cases op with
    | push x =>
      show runVec (pending.reverse ++ [x]) ops = runSpec (x :: pending) ops
      rw [← List.reverse_cons]
      exact ih (x :: pending)
    | pop =>
      show ((vecStack α).s_pop pending.reverse).1
          :: runVec ((vecStack α).s_pop pending.reverse).2 ops
          = pending.head? :: runSpec pending.tail ops
      have h1 : (vecStack α).s_pop pending.reverse
          = (pending.head?, pending.tail.reverse) := by
        simp [vecStack, dropLast_reverse_eq]
      rw [h1, ih pending.tail]

/-! ## Claim theorems -/

/-- C1: for every sequence of pushes interleaved with pops on a `Vec`-backed
stack, each checked pop (`s_pop`) returns the most recently pushed item that
has not yet been popped (strict LIFO ordering, as recorded by the spec
oracle `runSpec`). -/
theorem vec_pops_are_strict_lifo {α : Type} (ops : List (StackOp α)) :
    runVec [] ops = runSpec [] ops :=
  runVec_eq_runSpec ops []

/-- C2: on the `Vec`-backed stack, whenever the checked counterpart is
non-absent, `s_pop_unchecked` returns the same item and final state as
`s_pop`, `lifo_ref_unchecked` the same element as `lifo_ref`, and
`lifo_mut_unchecked` designates the same element as `lifo_mut`. -/
theorem unchecked_agree_with_checked {α : Type} (v : List α) (x : α)
    (v' : List α) :
    ((vecStack α).s_pop v = (some x, v') →
      Stack.s_pop_unchecked (vecStack α) v = some (x, v')) ∧
    ((vecStack α).lifo_ref v = some x →
      Stack.lifo_ref_unchecked (vecStack α) v = some x) ∧
    ((vecStack α).lifo_mut v = some x →
      Stack.lifo_mut_unchecked (vecStack α) v = some x) := by
  refine ⟨fun h => ?_, fun h => h, fun h => h⟩
  simp [Stack.s_pop_unchecked, h]

theorem unchecked_agree_with_checked_witness :
    Stack.s_pop_unchecked (vecStack Nat) [7] = some (7, []) ∧
    Stack.lifo_ref_unchecked (vecStack Nat) [7] = some 7 ∧
    Stack.lifo_mut_unchecked (vecStack Nat) [7] = some 7 :=
  ⟨(unchecked_agree_with_checked [7] 7 []).1 rfl,
   (unchecked_agree_with_checked [7] 7 []).2.1 rfl,
   (unchecked_agree_with_checked [7] 7 []).2.2 rfl⟩

/-- C3: every `LIFOEntry` built through a safe public path wraps a non-empty
container at construction: `lifo` yields an entry only after `s_is_empty`
came back `false`, and `lifo_push` yields an entry only after the push
completed, so the wrapped container is non-empty in both cases. -/
theorem entry_construction_requires_nonempty {α : Type} (v : List α) (x : α)
    (e : LIFOEntry (List α)) :
    (Stack.lifo (vecStack α) v = some e →
      (vecStack α).s_is_empty e.stack = false) ∧
    (VecStack.lifo_push v x = some e →
      (vecStack α).s_is_empty e.stack = false) := by
  constructor
  · intro h
    unfold Stack.lifo at h
    split at h
    · exact absurd h (by simp)
    · cases h
      have h2 : ¬ (vecStack α).s_is_empty v = true := by assumption
      simp [vecStack, LIFOEntry.new] at h2 ⊢
      exact h2
  · intro h
    unfold VecStack.lifo_push Stack.lifo_unchecked Stack.lifo at h
    split at h
    · exact absurd h (by simp)
    · cases h
      simp [vecStack, LIFOEntry.new]

theorem entry_construction_requires_nonempty_witness :
    (vecStack Nat).s_is_empty (LIFOEntry.new [5]).stack = false ∧
    (vecStack Nat).s_is_empty (LIFOEntry.new [4]).stack = false :=
  ⟨(entry_construction_requires_nonempty [5] 0 (LIFOEntry.new [5])).1 rfl,
   (entry_construction_requires_nonempty [] 4 (LIFOEntry.new [4])).2 rfl⟩

/-- C4: on the `Vec`-backed stack, `s_is_empty` returns `true` exactly when a
checked pop (`s_pop`) performed on that same state would return absence. -/
theorem is_empty_iff_pop_absent {α : Type} (v : List α) :
    (vecStack α).s_is_empty v = true ↔ ((vecStack α).s_pop v).1 = none := by
  simp [vecStack, List.isEmpty_iff]

/-- C5: pushing `x` through `lifo_push` and immediately consuming the
returned entry with `LIFOEntry::pop` yields exactly `x`, and the container
afterwards is the original one, so in particular its length is restored. -/
theorem lifo_push_then_pop_roundtrip {α : Type} (v : List α) (x : α) :
    (VecStack.lifo_push v x).bind (LIFOEntry.pop (vecStack α))
      = some (x, v) ∧
    ((VecStack.lifo_push v x).bind (LIFOEntry.pop (vecStack α))).map
      (fun p => p.2.length) = some v.length := by
  have h1 : (VecStack.lifo_push v x).bind (LIFOEntry.pop (vecStack α))
      = some (x, v) := by
    simp [VecStack.lifo_push, Stack.lifo_unchecked, Stack.lifo,
      Stack.s_pop_unchecked, LIFOEntry.pop, LIFOEntry.new, vecStack,
      List.getLast?_concat]
  exact ⟨h1, by rw [h1]; rfl⟩

/-- C6: writing `w` through a `LIFOEntry`'s mutable dereference and then
dropping the entry without popping leaves the container's length unchanged,
its top element equal to `w`, and all elements below the top unchanged. -/
theorem entry_write_then_drop_frame {α : Type} (v : List α) (w : α)
    (h : v ≠ []) :
    ∃ e' : LIFOEntry (List α),
      LIFOEntry.deref_mut_write (vecStack α) (LIFOEntry.new v) w = some e' ∧
      e'.stack.length = v.length ∧
      e'.stack.getLast? = some w ∧
      e'.stack.dropLast = v.dropLast := by
  obtain ⟨a, ha⟩ : ∃ a, v.getLast? = some a := by
    cases h1 : v.getLast? with
    | none => exact absurd (List.getLast?_eq_none_iff.mp h1) h
    | some a => exact ⟨a, rfl⟩
  refine ⟨LIFOEntry.new (v.set (v.length - 1) w), ?_, ?_, ?_, ?_⟩
  · simp [LIFOEntry.deref_mut_write, Stack.lifo_mut_unchecked, LIFOEntry.new,
      vecStack, ha]
  · simp [LIFOEntry.new]
  · simp [LIFOEntry.new, set_last_eq v w h, List.getLast?_concat]
  · simp [LIFOEntry.new, set_last_eq v w h]

theorem entry_write_then_drop_frame_witness :
    ∃ e' : LIFOEntry (List Nat),
      LIFOEntry.deref_mut_write (vecStack Nat) (LIFOEntry.new [1, 2]) 9
        = some e' ∧
      e'.stack.length = ([1, 2] : List Nat).length ∧
      e'.stack.getLast? = some 9 ∧
      e'.stack.dropLast = ([1, 2] : List Nat).dropLast :=
  entry_write_then_drop_frame [1, 2] 9 (by decide)

/-- C7: on the empty `Vec`-backed stack every checked operation signals
absence — `lifo`, `s_pop`, `lifo_ref` and `lifo_mut` all return `none` — and
`s_pop` leaves the container empty (the others do not touch it at all). -/
theorem empty_stack_checked_ops_signal_absence (α : Type) :
    Stack.lifo (vecStack α) [] = none ∧
    (vecStack α).s_pop [] = (none, []) ∧
    (vecStack α).lifo_ref ([] : List α) = none ∧
    (vecStack α).lifo_mut ([] : List α) = none := by
  refine ⟨?_, rfl, rfl, rfl⟩
  simp [Stack.lifo, vecStack]

/-- C8: for every `Stack` implementation, the default `s_push_checked`
always succeeds: it returns `Some(())` and leaves the container exactly as
`s_push` with the same item would. -/
theorem push_checked_default_always_succeeds {σ α : Type}
    (S : StackImpl σ α) (s : σ) (x : α) :
    Stack.s_push_checked S s x = (some (), S.s_push s x) :=
  rfl

/-- C9: a successful checked pop on the `Vec`-backed stack removes exactly
the last element: appending the popped item back restores the original
sequence, and the resulting state is the original minus its last element. -/
theorem pop_removes_exactly_last {α : Type} (v v' : List α) (x : α) :
    (vecStack α).s_pop v = (some x, v') → v' ++ [x] = v ∧ v' = v.dropLast := by
  intro h
  have h1 : v.getLast? = some x := congrArg Prod.fst h
  have h2 : v.dropLast = v' := congrArg Prod.snd h
  subst h2
  exact ⟨List.dropLast_append_getLast? x h1, rfl⟩

theorem pop_removes_exactly_last_witness :
    ([1] : List Nat) ++ [2] = [1, 2] ∧
    ([1] : List Nat) = ([1, 2] : List Nat).dropLast :=
  pop_removes_exactly_last [1, 2] [1] 2 rfl

/-- C10: `lifo` followed by dropping the returned entry leaves the container
exactly unchanged: the entry produced by `lifo` wraps precisely the original
container state. -/
theorem lifo_then_drop_leaves_unchanged {α : Type} (v : List α)
    (e : LIFOEntry (List α)) :
    Stack.lifo (vecStack α) v = some e → e.stack = v := by
  intro h
  unfold Stack.lifo at h
  split at h
  · exact absurd h (by simp)
  · cases h
    rfl

theorem lifo_then_drop_leaves_unchanged_witness :
    (LIFOEntry.new [3] : LIFOEntry (List Nat)).stack = [3] :=
  lifo_then_drop_leaves_unchanged [3] (LIFOEntry.new [3]) rfl
